import Mathlib

/-!
Shallow embedding of the avatar-upload API route of the hedwig repository
(`pages/api/upload-avatar.js`).

The route is a single request handler.  We model:

* Node's `path.join` on POSIX paths (segment split, `.` / `..`
  normalisation, re-joining) — `pathJoin`;
* the filesystem the handler mutates — `Fs`, with directories, read-only
  directories (to let `renameSync` / `unlinkSync` fail as they can at
  runtime) and files carrying an abstract content id;
* `fs.renameSync`, `fs.unlinkSync`, `fs.existsSync`,
  `fs.mkdirSync(..., recursive)`;
* JavaScript's number-to-decimal-string conversion used by
  `Date.now() + '-' + originalFilename` — `decRepr`;
* the parsed multipart form (`formidable` hands the callback either a
  single file object or an array of them) and the handler itself,
  branch for branch.
-/

namespace Hedwig

/-! ### Path model: segments and `path.join` -/

/-- Split a character list on `'/'`; `acc` holds the current segment
reversed. -/
def splitAux : List Char → List Char → List String
  | [], acc => [String.mk acc.reverse]
  | c :: cs, acc =>
    if c = '/' then String.mk acc.reverse :: splitAux cs []
    else splitAux cs (c :: acc)

/-- The non-empty `'/'`-separated segments of a path string. -/
def segsOf (p : String) : List String :=
  (splitAux p.data []).filter (fun s => !(s == ""))

/-- One step of POSIX path normalisation: `.` is dropped, `..` pops the
last segment (at the root it is a no-op, as for absolute paths), any
other segment is appended. -/
def normStep (st : List String) (s : String) : List String :=
  if s = "." then st
  else if s = ".." then st.dropLast
  else st ++ [s]

/-- Normalise a segment list (resolving `.` and `..`). -/
def normSegs (l : List String) : List String := l.foldl normStep []

/-- Re-join segments into an absolute path string. -/
def joinSegs : List String → String
  | [] => "/"
  | [s] => "/" ++ s
  | s :: rest => "/" ++ s ++ joinSegs rest

/-- Node's `path.join a b` on POSIX paths: concatenate with a separator,
then normalise. -/
def pathJoin (a b : String) : String :=
  joinSegs (normSegs (segsOf (a ++ "/" ++ b)))

/-- The directory containing a (normalised, absolute) path. -/
def parentDir (p : String) : String := joinSegs ((segsOf p).dropLast)

/-! ### Filesystem model -/

/-- A filesystem: existing directories, directories the process cannot
write into, and files as `(path, content id)` pairs. -/
structure Fs where
  dirs : List String
  roDirs : List String
  files : List (String × Nat)
deriving DecidableEq

/-- Content stored at path `p`, if a file exists there. -/
def Fs.getFile (fs : Fs) (p : String) : Option Nat :=
  (fs.files.find? (fun e => e.1 == p)).map (fun e => e.2)

/-- Whether a file exists at path `p`. -/
def Fs.hasFile (fs : Fs) (p : String) : Bool :=
  fs.files.any (fun e => e.1 == p)

/-- `fs.existsSync`: the path names an existing directory or file. -/
def existsSync (fs : Fs) (p : String) : Bool :=
  fs.dirs.contains p || fs.hasFile p

/-- `fs.renameSync old new`: moves the file at `old` to `new`,
replacing any file already at `new` (POSIX `rename` semantics).  It
fails when `old` does not exist, when the destination directory is
missing, or when either directory is not writable. -/
def renameSync (fs : Fs) (oldPath newPath : String) : Except Unit Fs :=
  match fs.getFile oldPath with
  | none => .error ()
  | some c =>
    if fs.dirs.contains (parentDir newPath)
        && !(fs.roDirs.contains (parentDir newPath))
        && !(fs.roDirs.contains (parentDir oldPath)) then
      .ok { fs with
              files := (newPath, c) ::
                fs.files.filter (fun e => !(e.1 == oldPath) && !(e.1 == newPath)) }
    else .error ()

/-- `fs.unlinkSync p`: deletes the file at `p`; fails when it does not
exist or its directory is not writable. -/
def unlinkSync (fs : Fs) (p : String) : Except Unit Fs :=
  if fs.hasFile p && !(fs.roDirs.contains (parentDir p)) then
    .ok { fs with files := fs.files.filter (fun e => !(e.1 == p)) }
  else .error ()

/-- The proper ancestor prefixes of a segment list, joined into paths. -/
def ancestorsAux (base : List String) : List String → List String
  | [] => []
  | s :: rest => joinSegs (base ++ [s]) :: ancestorsAux (base ++ [s]) rest

/-- Every prefix path of `p` (including `p` itself when it has at least
one segment). -/
def ancestorsOf (p : String) : List String := ancestorsAux [] (segsOf p)

/-- `fs.mkdirSync(p, { recursive: true })`: creates `p` and all missing
ancestor directories. -/
def mkdirRecursive (fs : Fs) (p : String) : Fs :=
  { fs with dirs := p :: (ancestorsOf p ++ fs.dirs) }

/-! ### JavaScript number-to-string (`Date.now() + '-'`) -/

/-- Decimal digit characters of `n`, fuel-driven
(`decAux (n+1) n []` always has enough fuel). -/
def decAux : Nat → Nat → List Char → List Char
  | 0, _, acc => acc
  | f + 1, n, acc =>
    if n < 10 then Nat.digitChar n :: acc
    else decAux f (n / 10) (Nat.digitChar (n % 10) :: acc)

/-- The decimal string of a natural number, as JavaScript's
number-to-string conversion produces for `Date.now()`. -/
def decRepr (n : Nat) : String := String.mk (decAux (n + 1) n [])

/-! ### Requests, parsed forms and responses -/

/-- One uploaded file as `formidable` reports it: the client-declared
original filename (absent or empty when not provided) and the temporary
path the bytes were parked at. -/
structure UploadedFile where
  originalFilename : Option String
  filepath : String
deriving DecidableEq

/-- `files.avatar` may be a single file object or an array of them. -/
inductive AvatarField
  | single (f : UploadedFile)
  | multi (l : List UploadedFile)
deriving DecidableEq

/-- The `files` object the parse callback receives (only the `avatar`
field is consulted by the handler). -/
structure ParsedFiles where
  avatar : Option AvatarField
deriving DecidableEq

/-- Outcome of `form.parse`: an error or the parsed files. -/
inductive ParseOutcome
  | failure (msg : String)
  | success (pf : ParsedFiles)
deriving DecidableEq

/-- An incoming request: HTTP method, what parsing its body yields, and
the value `Date.now()` reads while it is handled. -/
structure Request where
  method : String
  parsed : ParseOutcome
  now : Nat
deriving DecidableEq

/-- The JSON body of a response: an `error` field or an `imageUrl`
field. -/
inductive Body
  | jsonError (msg : String)
  | jsonImageUrl (url : String)
deriving DecidableEq

/-- A response: status code, JSON body, and the `Allow` header when
set. -/
structure Response where
  status : Nat
  body : Body
  allow : Option (List String)
deriving DecidableEq

/-! ### The route -/

/-- `path.join(process.cwd(), 'public/uploads/avatars')`. -/
def uploadDir (cwd : String) : String :=
  pathJoin cwd ("public/uploads/avatars")

/-- The module-level directory bootstrap:
`if (!fs.existsSync(uploadDir)) fs.mkdirSync(uploadDir, { recursive: true })`. -/
def ensureUploadDir (cwd : String) (fs : Fs) : Fs :=
  if existsSync fs (uploadDir cwd) then fs
  else mkdirRecursive fs (uploadDir cwd)

/-- `Array.isArray(file) ? file[0] : file` (with JS `undefined` for
`[][0]`). -/
def extractFile : AvatarField → Option UploadedFile
  | .single f => some f
  | .multi l => l.head?

/-- `Date.now() + '-' + anUploadedFile.originalFilename`. -/
def uniqueFilename (now : Nat) (name : String) : String :=
  decRepr now ++ "-" ++ name

/-- `path.join(uploadDir, uniqueFilename)`. -/
def destPath (cwd : String) (now : Nat) (name : String) : String :=
  pathJoin (uploadDir cwd) (uniqueFilename now name)

/-- The request handler of `pages/api/upload-avatar.js`, branch for
branch.  JS falsiness of `anUploadedFile.originalFilename` covers both
a missing name and the empty string. -/
def handler (cwd : String) (req : Request) (fs : Fs) : Response × Fs :=
  if req.method = "POST" then
    match req.parsed with
    | .failure _ =>
      (⟨500, .jsonError ("Error parsing form data."), none⟩, fs)
    | .success pf =>
      match pf.avatar with
      | none => (⟨400, .jsonError ("No file uploaded."), none⟩, fs)
      | some fld =>
        match extractFile fld with
        | none =>
          (⟨400, .jsonError ("No file uploaded or filename is missing."), none⟩, fs)
        | some f =>
          match f.originalFilename with
          | none =>
            (⟨400, .jsonError ("No file uploaded or filename is missing."), none⟩, fs)
          | some name =>
            if name = "" then
              (⟨400, .jsonError ("No file uploaded or filename is missing."), none⟩, fs)
            else
              match renameSync fs f.filepath (destPath cwd req.now name) with
              | .ok fs2 =>
                (⟨200, .jsonImageUrl (("/uploads/avatars/") ++ uniqueFilename req.now name), none⟩, fs2)
              | .error _ =>
                match unlinkSync fs f.filepath with
                | .ok fs2 =>
                  (⟨500, .jsonError ("Error saving uploaded file."), none⟩, fs2)
                | .error _ =>
                  (⟨500, .jsonError ("Error saving uploaded file."), none⟩, fs)
  else
    (⟨405, .jsonError ("Method not allowed"), some [("POST")]⟩, fs)

/-- The route as the server runs it: module initialisation (directory
bootstrap) has happened before the handler sees a request. -/
def processRequest (cwd : String) (req : Request) (fs : Fs) : Response × Fs :=
  handler cwd req (ensureUploadDir cwd fs)

/-- The temporary-upload path a request's file occupies (`""` when the
request carries no usable file). -/
def reqTemp (req : Request) : String :=
  match req.parsed with
  | .failure _ => ""
  | .success pf =>
    match pf.avatar with
    | none => ""
    | some fld =>
      match extractFile fld with
      | none => ""
      | some f => f.filepath

/-- The destination path a request's file would be stored at (`""` when
the request carries no usable file). -/
def reqDest (cwd : String) (req : Request) : String :=
  match req.parsed with
  | .failure _ => ""
  | .success pf =>
    match pf.avatar with
    | none => ""
    | some fld =>
      match extractFile fld with
      | none => ""
      | some f =>
        match f.originalFilename with
        | none => ""
        | some name => destPath cwd req.now name

/-- The branch condition of the two 400 responses: no `avatar` field,
an empty file array, or a missing/empty original filename. -/
def missingAvatar (pf : ParsedFiles) : Bool :=
  match pf.avatar with
  | none => true
  | some fld =>
    match extractFile fld with
    | none => true
    | some f =>
      match f.originalFilename with
      | none => true
      | some name => name == ""

/-- Proof helper: decode a digit string back to the number it denotes
(left fold over decimal digits). -/
def decVal (l : List Char) : Nat :=
  l.foldl (fun a c => 10 * a + (c.toNat - 48)) 0

/-- Proof helper: `p` lies strictly under directory `root`
(`root ++ "/"` starts the string `p`). -/
def underDir (root p : String) : Bool :=
  (root ++ "/").data.isPrefixOf p.data

/-! ### Helper lemmas about the path and string model -/

theorem hw_mk_data (s : String) : String.mk s.data = s := by
  cases s
  rfl

theorem hw_splitAux_append (l1 l2 : List Char) :
    ∀ acc, splitAux (l1 ++ '/' :: l2) acc = splitAux l1 acc ++ splitAux l2 [] := by
  induction l1 with
  | nil => intro acc; simp [splitAux]
  | cons c cs ih =>
    intro acc
    by_cases hc : c = '/'
    · subst hc
      simp [splitAux, ih]
    · simp [splitAux, hc, ih]

theorem hw_splitAux_noslash (l : List Char) :
    ∀ acc, (∀ c ∈ l, c ≠ '/') → splitAux l acc = [String.mk (acc.reverse ++ l)] := by
  induction l with
  | nil => intro acc _; simp [splitAux]
  | cons c cs ih =>
    intro acc h
    have hc : c ≠ '/' := h c (List.mem_cons_self c cs)
    have hcs : ∀ x ∈ cs, x ≠ '/' := fun x hx => h x (List.mem_cons_of_mem c hx)
    simp [splitAux, hc, ih (c :: acc) hcs]

theorem hw_segsOf_append (a b : String) :
    segsOf (a ++ "/" ++ b) = segsOf a ++ segsOf b := by
  have hdata : (a ++ "/" ++ b).data = a.data ++ '/' :: b.data := by
    simp [String.data_append]
  simp [segsOf, hdata, hw_splitAux_append, List.filter_append]

theorem hw_segsOf_plain (name : String) (h1 : name ≠ "")
    (h2 : ∀ c ∈ name.data, c ≠ '/') : segsOf name = [name] := by
  have : splitAux name.data [] = [String.mk name.data] := by
    simpa using hw_splitAux_noslash name.data [] h2
  have hne : (name == "") = false := by
    simpa using h1
  simp [segsOf, this, hw_mk_data, hne]

theorem hw_normSegs_snoc (l : List String) (u : String)
    (h1 : u ≠ ".") (h2 : u ≠ "..") :
    normSegs (l ++ [u]) = normSegs l ++ [u] := by
  simp [normSegs, List.foldl_append, normStep, h1, h2]

theorem hw_joinSegs_snoc_inj (l : List String) (u1 u2 : String)
    (h : joinSegs (l ++ [u1]) = joinSegs (l ++ [u2])) : u1 = u2 := by
  induction l with
  | nil =>
    simp only [List.nil_append, joinSegs] at h
    have := congrArg String.data h
    simp [String.data_append] at this
    exact String.ext this
  | cons s rest ih =>
    rcases rest with _ | ⟨t, ts⟩
    · simp only [List.cons_append, List.nil_append, joinSegs] at h
      have := congrArg String.data h
      simp [String.data_append] at this
      exact String.ext this
    · simp only [List.cons_append, joinSegs] at h
      have := congrArg String.data h
      simp [String.data_append] at this
      exact ih (String.ext this)

/-! ### Helper lemmas about `decRepr` -/

theorem hw_decAux_acc (f : Nat) :
    ∀ (n : Nat) (acc : List Char), decAux f n acc = decAux f n [] ++ acc := by
  induction f with
  | zero => intro n acc; simp [decAux]
  | succ f ih =>
    intro n acc
    by_cases h : n < 10
    · simp [decAux, h]
    · simp only [decAux, if_neg h]
      rw [ih (n / 10) (Nat.digitChar (n % 10) :: acc),
        ih (n / 10) [Nat.digitChar (n % 10)]]
      simp

theorem hw_digitChar_toNat (d : Nat) (hd : d < 10) :
    (Nat.digitChar d).toNat - 48 = d := by
  interval_cases d <;> decide

theorem hw_decVal_decAux (f : Nat) :
    ∀ n : Nat, n < 10 ^ f → decVal (decAux f n []) = n := by
  induction f with
  | zero =>
    intro n hn
    interval_cases n
    simp [decAux, decVal]
  | succ f ih =>
    intro n hn
    by_cases h : n < 10
    · simp [decAux, h, decVal, hw_digitChar_toNat n h]
    · simp only [decAux, if_neg h]
      rw [hw_decAux_acc]
      have hdiv : n / 10 < 10 ^ f := by
        apply Nat.div_lt_of_lt_mul
        calc n < 10 ^ (f + 1) := hn
        _ = 10 * 10 ^ f := by ring
      have hv := ih (n / 10) hdiv
      simp only [decVal, List.foldl_append, List.foldl] at hv ⊢
      rw [hv, hw_digitChar_toNat (n % 10) (Nat.mod_lt n (by norm_num))]
      exact Nat.div_add_mod n 10

theorem hw_lt_pow_succ (m : Nat) : m < 10 ^ (m + 1) := by
  have h1 : m + 1 < 10 ^ (m + 1) := Nat.lt_pow_self (by norm_num) (m + 1)
  omega

theorem hw_decRepr_inj (m n : Nat) (h : decRepr m = decRepr n) : m = n := by
  have hm : m < 10 ^ (m + 1) := hw_lt_pow_succ m
  have hn : n < 10 ^ (n + 1) := hw_lt_pow_succ n
  have hdata : decAux (m + 1) m [] = decAux (n + 1) n [] := by
    have := congrArg String.data h
    simpa [decRepr] using this
  calc m = decVal (decAux (m + 1) m []) := (hw_decVal_decAux (m + 1) m hm).symm
  _ = decVal (decAux (n + 1) n []) := by rw [hdata]
  _ = n := hw_decVal_decAux (n + 1) n hn

theorem hw_digitChar_isDigit : ∀ d < 10, (Nat.digitChar d).isDigit = true := by
  decide

theorem hw_decAux_digits (f : Nat) :
    ∀ (n : Nat) (acc : List Char), (∀ c ∈ acc, c.isDigit = true) →
      ∀ c ∈ decAux f n acc, c.isDigit = true := by
  induction f with
  | zero => intro n acc hacc; simpa [decAux] using hacc
  | succ f ih =>
    intro n acc hacc c hc
    by_cases h : n < 10
    · simp only [decAux, if_pos h] at hc
      rcases List.mem_cons.mp hc with h1 | h1
      · subst h1
        exact hw_digitChar_isDigit n h
      · exact hacc c h1
    · simp only [decAux, if_neg h] at hc
      refine ih (n / 10) (Nat.digitChar (n % 10) :: acc) ?_ c hc
      intro x hx
      rcases List.mem_cons.mp hx with h1 | h1
      · subst h1
        exact hw_digitChar_isDigit (n % 10) (Nat.mod_lt n (by norm_num))
      · exact hacc x h1

theorem hw_decRepr_digits (n : Nat) :
    ∀ c ∈ (decRepr n).data, c.isDigit = true := by
  intro c hc
  exact hw_decAux_digits (n + 1) n [] (by simp) c (by simpa [decRepr] using hc)

theorem hw_isDigit_ne (c : Char) (h : c.isDigit = true) :
    c ≠ '/' ∧ c ≠ '-' ∧ c ≠ '.' := by
  refine ⟨?_, ?_, ?_⟩ <;> intro he <;> subst he <;> exact absurd h (by decide)

/-! ### Helper lemmas about generated filenames and destination paths -/

theorem hw_uniqueFilename_data (t : Nat) (name : String) :
    (uniqueFilename t name).data = (decRepr t).data ++ '-' :: name.data := by
  simp [uniqueFilename, String.data_append]

theorem hw_sep_inj (sep : Char) (l1 : List Char) :
    ∀ (l2 r1 r2 : List Char), sep ∉ l1 → sep ∉ l2 →
      l1 ++ sep :: r1 = l2 ++ sep :: r2 → l1 = l2 ∧ r1 = r2 := by
  induction l1 with
  | nil =>
    intro l2 r1 r2 _ h2 h
    rcases l2 with _ | ⟨c, cs⟩
    · simpa using h
    · simp only [List.nil_append, List.cons_append, List.cons.injEq] at h
      exact absurd (h.1 ▸ List.mem_cons_self c cs) h2
  | cons c cs ih =>
    intro l2 r1 r2 h1 h2 h
    rcases l2 with _ | ⟨d, ds⟩
    · simp only [List.nil_append, List.cons_append, List.cons.injEq] at h
      exact absurd (h.1 ▸ List.mem_cons_self c cs) h1
    · simp only [List.cons_append, List.cons.injEq] at h
      have hcs : sep ∉ cs := fun hx => h1 (List.mem_cons_of_mem c hx)
      have hds : sep ∉ ds := fun hx => h2 (List.mem_cons_of_mem d hx)
      rcases ih ds r1 r2 hcs hds h.2 with ⟨he1, he2⟩
      exact ⟨by rw [h.1, he1], he2⟩

theorem hw_dash_not_in_decRepr (t : Nat) : '-' ∉ (decRepr t).data := by
  intro hmem
  exact (hw_isDigit_ne '-' (hw_decRepr_digits t '-' hmem)).2.1 rfl

theorem hw_uniqueFilename_inj (t1 t2 : Nat) (name : String) (h : t1 ≠ t2) :
    uniqueFilename t1 name ≠ uniqueFilename t2 name := by
  intro he
  have hd := congrArg String.data he
  rw [hw_uniqueFilename_data, hw_uniqueFilename_data] at hd
  have := hw_sep_inj '-' (decRepr t1).data (decRepr t2).data name.data name.data
    (hw_dash_not_in_decRepr t1) (hw_dash_not_in_decRepr t2) hd
  exact h (hw_decRepr_inj t1 t2 (String.ext this.1))

theorem hw_dash_mem_uniqueFilename (t : Nat) (name : String) :
    '-' ∈ (uniqueFilename t name).data := by
  rw [hw_uniqueFilename_data]
  exact List.mem_append_right _ (List.mem_cons_self _ _)

theorem hw_uniqueFilename_ne_empty (t : Nat) (name : String) :
    uniqueFilename t name ≠ "" := by
  intro he
  have := hw_dash_mem_uniqueFilename t name
  rw [he] at this
  simp at this

theorem hw_uniqueFilename_ne_dot (t : Nat) (name : String) :
    uniqueFilename t name ≠ "." := by
  intro he
  have := hw_dash_mem_uniqueFilename t name
  rw [he] at this
  simp at this

theorem hw_uniqueFilename_ne_ddot (t : Nat) (name : String) :
    uniqueFilename t name ≠ ".." := by
  intro he
  have := hw_dash_mem_uniqueFilename t name
  rw [he] at this
  simp at this

theorem hw_uniqueFilename_noslash (t : Nat) (name : String)
    (h : ∀ c ∈ name.data, c ≠ '/') :
    ∀ c ∈ (uniqueFilename t name).data, c ≠ '/' := by
  intro c hc
  rw [hw_uniqueFilename_data] at hc
  rcases List.mem_append.mp hc with h1 | h1
  · exact (hw_isDigit_ne c (hw_decRepr_digits t c h1)).1
  · rcases List.mem_cons.mp h1 with h2 | h2
    · subst h2; decide
    · exact h c h2

theorem hw_destPath_eq (cwd : String) (t : Nat) (name : String)
    (h : ∀ c ∈ name.data, c ≠ '/') :
    destPath cwd t name =
      joinSegs (normSegs (segsOf (uploadDir cwd)) ++ [uniqueFilename t name]) := by
  rw [destPath, pathJoin, hw_segsOf_append,
    hw_segsOf_plain (uniqueFilename t name) (hw_uniqueFilename_ne_empty t name)
      (hw_uniqueFilename_noslash t name h),
    hw_normSegs_snoc _ _ (hw_uniqueFilename_ne_dot t name)
      (hw_uniqueFilename_ne_ddot t name)]

theorem hw_destPath_inj (cwd : String) (t1 t2 : Nat) (name : String)
    (ht : t1 ≠ t2) (h : ∀ c ∈ name.data, c ≠ '/') :
    destPath cwd t1 name ≠ destPath cwd t2 name := by
  rw [hw_destPath_eq cwd t1 name h, hw_destPath_eq cwd t2 name h]
  intro he
  exact hw_uniqueFilename_inj t1 t2 name ht (hw_joinSegs_snoc_inj _ _ _ he)

/-! ### Helper lemmas about the filesystem operations -/

theorem hw_rename_ok_mem (fs fs2 : Fs) (oldPath newPath p : String) (c : Nat)
    (h : renameSync fs oldPath newPath = .ok fs2) (hp : (p, c) ∈ fs.files)
    (h1 : p ≠ oldPath) (h2 : p ≠ newPath) : (p, c) ∈ fs2.files := by
  unfold renameSync at h
  split at h
  · exact absurd h (by simp)
  · split at h
    · injection h with h
      rw [← h]
      refine List.mem_cons_of_mem _ (List.mem_filter.mpr ⟨hp, ?_⟩)
      simp [h1, h2]
    · exact absurd h (by simp)

theorem hw_rename_ok_sub (fs fs2 : Fs) (oldPath newPath q : String) (c : Nat)
    (h : renameSync fs oldPath newPath = .ok fs2) (hq : (q, c) ∈ fs2.files) :
    (q, c) ∈ fs.files ∨ q = newPath := by
  unfold renameSync at h
  split at h
  · exact absurd h (by simp)
  · split at h
    · injection h with h
      rw [← h] at hq
      rcases List.mem_cons.mp hq with h3 | h3
      · right; exact congrArg Prod.fst h3
      · left; exact (List.mem_filter.mp h3).1
    · exact absurd h (by simp)

theorem hw_unlink_ok_files (fs fs2 : Fs) (p : String)
    (h : unlinkSync fs p = .ok fs2) :
    fs2.files = fs.files.filter (fun e => !(e.1 == p)) := by
  unfold unlinkSync at h
  split at h
  · injection h with h
    rw [← h]
  · exact absurd h (by simp)

theorem hw_unlink_ok_not_hasFile (fs fs2 : Fs) (p : String)
    (h : unlinkSync fs p = .ok fs2) : fs2.hasFile p = false := by
  rw [Fs.hasFile, hw_unlink_ok_files fs fs2 p h]
  rw [List.any_eq_false]
  intro e he
  have := (List.mem_filter.mp he).2
  simpa using this

theorem hw_unlink_ok_mem (fs fs2 : Fs) (p q : String) (c : Nat)
    (h : unlinkSync fs q = .ok fs2) (hp : (p, c) ∈ fs.files) (h1 : p ≠ q) :
    (p, c) ∈ fs2.files := by
  rw [hw_unlink_ok_files fs fs2 q h]
  refine List.mem_filter.mpr ⟨hp, ?_⟩
  simp [h1]

theorem hw_unlink_ok_sub (fs fs2 : Fs) (q p : String) (c : Nat)
    (h : unlinkSync fs q = .ok fs2) (hp : (p, c) ∈ fs2.files) :
    (p, c) ∈ fs.files := by
  rw [hw_unlink_ok_files fs fs2 q h] at hp
  exact (List.mem_filter.mp hp).1

/-! ### Helper lemmas about the handler's filesystem footprint -/

theorem hw_handler_preserves (cwd : String) (req : Request) (fs : Fs)
    (p : String) (c : Nat) (hp : (p, c) ∈ fs.files)
    (h1 : p ≠ reqTemp req) (h2 : p ≠ reqDest cwd req) :
    (p, c) ∈ (handler cwd req fs).2.files := by
  obtain ⟨m, pr, now⟩ := req
  by_cases hm : m = "POST"
  · cases pr with
    | failure msg => simpa [handler, hm] using hp
    | success pf =>
      cases hav : pf.avatar with
      | none => simpa [handler, hm, hav] using hp
      | some fld =>
        cases hex : extractFile fld with
        | none => simpa [handler, hm, hav, hex] using hp
        | some f =>
          cases hon : f.originalFilename with
          | none => simpa [handler, hm, hav, hex, hon] using hp
          | some name =>
            by_cases hne : name = ""
            · simpa [handler, hm, hav, hex, hon, hne] using hp
            · have htemp : reqTemp ⟨m, .success pf, now⟩ = f.filepath := by
                simp [reqTemp, hav, hex]
              have hdest : reqDest cwd ⟨m, .success pf, now⟩ =
                  destPath cwd now name := by
                simp [reqDest, hav, hex, hon]
              rw [htemp] at h1
              rw [hdest] at h2
              cases hre : renameSync fs f.filepath (destPath cwd now name) with
              | ok fs2 =>
                have hres : (handler cwd ⟨m, .success pf, now⟩ fs).2 = fs2 := by
                  simp [handler, hm, hav, hex, hon, hne, hre]
                rw [hres]
                exact hw_rename_ok_mem fs fs2 f.filepath (destPath cwd now name)
                  p c hre hp h1 h2
              | error e =>
                cases hun : unlinkSync fs f.filepath with
                | ok fs2 =>
                  have hres : (handler cwd ⟨m, .success pf, now⟩ fs).2 = fs2 := by
                    simp [handler, hm, hav, hex, hon, hne, hre, hun]
                  rw [hres]
                  exact hw_unlink_ok_mem fs fs2 p f.filepath c hun hp h1
                | error e2 =>
                  simpa [handler, hm, hav, hex, hon, hne, hre, hun] using hp
  · simpa [handler, hm] using hp

theorem hw_handler_new (cwd : String) (req : Request) (fs : Fs)
    (q : String) (c : Nat) (hq : (q, c) ∈ (handler cwd req fs).2.files) :
    (q, c) ∈ fs.files ∨ q = reqDest cwd req := by
  obtain ⟨m, pr, now⟩ := req
  by_cases hm : m = "POST"
  · cases pr with
    | failure msg => left; simpa [handler, hm] using hq
    | success pf =>
      cases hav : pf.avatar with
      | none => left; simpa [handler, hm, hav] using hq
      | some fld =>
        cases hex : extractFile fld with
        | none => left; simpa [handler, hm, hav, hex] using hq
        | some f =>
          cases hon : f.originalFilename with
          | none => left; simpa [handler, hm, hav, hex, hon] using hq
          | some name =>
            by_cases hne : name = ""
            · left; simpa [handler, hm, hav, hex, hon, hne] using hq
            · have hdest : reqDest cwd ⟨m, .success pf, now⟩ =
                  destPath cwd now name := by
                simp [reqDest, hav, hex, hon]
              rw [hdest]
              cases hre : renameSync fs f.filepath (destPath cwd now name) with
              | ok fs2 =>
                have hres : (handler cwd ⟨m, .success pf, now⟩ fs).2 = fs2 := by
                  simp [handler, hm, hav, hex, hon, hne, hre]
                rw [hres] at hq
                exact hw_rename_ok_sub fs fs2 f.filepath (destPath cwd now name)
                  q c hre hq
              | error e =>
                cases hun : unlinkSync fs f.filepath with
                | ok fs2 =>
                  have hres : (handler cwd ⟨m, .success pf, now⟩ fs).2 = fs2 := by
                    simp [handler, hm, hav, hex, hon, hne, hre, hun]
                  rw [hres] at hq
                  left
                  exact hw_unlink_ok_sub fs fs2 f.filepath q c hun hq
                | error e2 =>
                  left
                  simpa [handler, hm, hav, hex, hon, hne, hre, hun] using hq
  · left; simpa [handler, hm] using hq

/-! ### Claim theorems -/

/-- C5: for every request whose HTTP method is not POST, the handler
responds 405 with JSON error `Method not allowed` and an `Allow` header
advertising POST as the only allowed method, leaving the filesystem
unchanged. -/
theorem upload_method_not_allowed (cwd : String) (req : Request) (fs : Fs)
    (h : req.method ≠ "POST") :
    handler cwd req fs =
      (⟨405, .jsonError ("Method not allowed"), some [("POST")]⟩, fs) := by
  obtain ⟨m, pr, now⟩ := req
  simp only [Request.method] at h
  simp [handler, h]

/-- Witness for C5 at a concrete GET request. -/
theorem upload_method_not_allowed_witness :
    (⟨("GET"), .failure (""), 0⟩ : Request).method ≠ "POST" ∧
    handler ("/srv") ⟨("GET"), .failure (""), 0⟩ ⟨[], [], []⟩ =
      (⟨405, .jsonError ("Method not allowed"), some [("POST")]⟩, ⟨[], [], []⟩) :=
  ⟨by decide, upload_method_not_allowed ("/srv") ⟨("GET"), .failure (""), 0⟩
    ⟨[], [], []⟩ (by decide)⟩

/-- C6: for every POST request whose multipart body fails to parse, the
handler responds 500 with an error message in the JSON body, and the
filesystem is untouched (no partial state referencing a non-existent
file). -/
theorem upload_parse_error_response (cwd : String) (req : Request) (fs : Fs)
    (msg : String) (hm : req.method = "POST") (hp : req.parsed = .failure msg) :
    handler cwd req fs =
      (⟨500, .jsonError ("Error parsing form data."), none⟩, fs) := by
  obtain ⟨m, pr, now⟩ := req
  simp only [Request.method] at hm
  simp only [Request.parsed] at hp
  simp [handler, hm, hp]

/-- Witness for C6 at a concrete malformed-body request. -/
theorem upload_parse_error_response_witness :
    (⟨("POST"), .failure ("bad body"), 3⟩ : Request).method = "POST" ∧
    (⟨("POST"), .failure ("bad body"), 3⟩ : Request).parsed = .failure ("bad body") ∧
    handler ("/srv") ⟨("POST"), .failure ("bad body"), 3⟩ ⟨[], [], []⟩ =
      (⟨500, .jsonError ("Error parsing form data."), none⟩, ⟨[], [], []⟩) :=
  ⟨by decide, by decide, upload_parse_error_response ("/srv")
    ⟨("POST"), .failure ("bad body"), 3⟩ ⟨[], [], []⟩ ("bad body")
    (by decide) (by decide)⟩

/-- C2: for every POST upload whose parsed form carries no usable
`avatar` file (no field, empty array, or missing/empty original
filename), the handler responds 400 and performs no filesystem
mutation. -/
theorem upload_missing_file_rejected (cwd : String) (req : Request) (fs : Fs)
    (pf : ParsedFiles) (hm : req.method = "POST") (hp : req.parsed = .success pf)
    (hmiss : missingAvatar pf = true) :
    (handler cwd req fs).1.status = 400 ∧ (handler cwd req fs).2 = fs := by
  obtain ⟨m, pr, now⟩ := req
  simp only [Request.method] at hm
  simp only [Request.parsed] at hp
  subst hp
  cases hav : pf.avatar with
  | none => simp [handler, hm, hav]
  | some fld =>
    cases hex : extractFile fld with
    | none => simp [handler, hm, hav, hex]
    | some f =>
      cases hon : f.originalFilename with
      | none => simp [handler, hm, hav, hex, hon]
      | some name =>
        have hne : name = "" := by
          have := hmiss
          rw [missingAvatar, hav] at this
          simp only [hex, hon] at this
          simpa using this
        simp [handler, hm, hav, hex, hon, hne]

/-- Witness for C2 at a concrete request with no file part. -/
theorem upload_missing_file_rejected_witness :
    (⟨("POST"), .success ⟨none⟩, 3⟩ : Request).method = "POST" ∧
    (⟨("POST"), .success ⟨none⟩, 3⟩ : Request).parsed = .success ⟨none⟩ ∧
    missingAvatar ⟨none⟩ = true ∧
    ((handler ("/srv") ⟨("POST"), .success ⟨none⟩, 3⟩ ⟨[], [], []⟩).1.status = 400 ∧
      (handler ("/srv") ⟨("POST"), .success ⟨none⟩, 3⟩ ⟨[], [], []⟩).2 = ⟨[], [], []⟩) :=
  ⟨by decide, by decide, by decide,
    upload_missing_file_rejected ("/srv") ⟨("POST"), .success ⟨none⟩, 3⟩
      ⟨[], [], []⟩ ⟨none⟩ (by decide) (by decide) (by decide)⟩

/-- C1: for every valid single-file upload (POST, parse succeeds, an
`avatar` file part with a non-empty original filename, and a filesystem
in which the temporary upload exists and the destination directory is
present and writable), the handler responds 200 with
`imageUrl = "/uploads/avatars/" ++ <epoch-millis> ++ "-" ++ <original filename>`,
the filename preserved verbatim. -/
theorem upload_valid_success (cwd : String) (req : Request) (fs : Fs)
    (pf : ParsedFiles) (fld : AvatarField) (f : UploadedFile) (name : String)
    (c : Nat) (hm : req.method = "POST") (hp : req.parsed = .success pf)
    (hav : pf.avatar = some fld) (hex : extractFile fld = some f)
    (hon : f.originalFilename = some name) (hne : name ≠ "")
    (hold : fs.getFile f.filepath = some c)
    (hdir : fs.dirs.contains (parentDir (destPath cwd req.now name)) = true)
    (hro1 : fs.roDirs.contains (parentDir (destPath cwd req.now name)) = false)
    (hro2 : fs.roDirs.contains (parentDir f.filepath) = false) :
    (handler cwd req fs).1.status = 200 ∧
    (handler cwd req fs).1.body =
      .jsonImageUrl (("/uploads/avatars/") ++ (decRepr req.now ++ "-" ++ name)) := by
  obtain ⟨m, pr, now⟩ := req
  simp only [Request.method] at hm
  simp only [Request.parsed] at hp
  simp only [Request.now] at hdir hro1 hro2 ⊢
  subst hp
  have hre : renameSync fs f.filepath (destPath cwd now name) =
      .ok { fs with
              files := (destPath cwd now name, c) ::
                fs.files.filter
                  (fun e => !(e.1 == f.filepath) && !(e.1 == destPath cwd now name)) } := by
    simp [renameSync, hold]
    exact ⟨by simpa using hdir, by simpa using hro1, by simpa using hro2⟩
  simp [handler, hm, hav, hex, hon, hne, hre, uniqueFilename]

/-- Witness for C1 at a concrete upload of `a.png` at time 12. -/
theorem upload_valid_success_witness :
    ((⟨("POST"), .success ⟨some (.single ⟨some ("a.png"), ("/tmp/u1")⟩)⟩, 12⟩ :
        Request).method = "POST") ∧
    (⟨["/srv/public/uploads/avatars"], [],
        [(("/tmp/u1"), 42)]⟩ : Fs).getFile ("/tmp/u1") = some 42 ∧
    ((handler ("/srv")
        ⟨("POST"), .success ⟨some (.single ⟨some ("a.png"), ("/tmp/u1")⟩)⟩, 12⟩
        ⟨["/srv/public/uploads/avatars"], [], [(("/tmp/u1"), 42)]⟩).1.status = 200 ∧
      (handler ("/srv")
        ⟨("POST"), .success ⟨some (.single ⟨some ("a.png"), ("/tmp/u1")⟩)⟩, 12⟩
        ⟨["/srv/public/uploads/avatars"], [], [(("/tmp/u1"), 42)]⟩).1.body =
        .jsonImageUrl (("/uploads/avatars/") ++ (decRepr 12 ++ "-" ++ ("a.png")))) :=
  ⟨by decide, by decide,
    upload_valid_success ("/srv")
      ⟨("POST"), .success ⟨some (.single ⟨some ("a.png"), ("/tmp/u1")⟩)⟩, 12⟩
      ⟨["/srv/public/uploads/avatars"], [], [(("/tmp/u1"), 42)]⟩
      ⟨some (.single ⟨some ("a.png"), ("/tmp/u1")⟩)⟩
      (.single ⟨some ("a.png"), ("/tmp/u1")⟩) ⟨some ("a.png"), ("/tmp/u1")⟩
      ("a.png") 42 (by decide) (by decide) (by decide) (by decide) (by decide)
      (by decide) (by decide) (by decide) (by decide) (by decide)⟩

/-- C3: for every upload whose persist (rename) step fails, the handler
responds 500 with `Error saving uploaded file.`; when the best-effort
cleanup succeeds the orphaned temporary upload no longer exists on
disk, and when the cleanup itself fails the response is the same 500
(the failure is only logged) and the filesystem is unchanged. -/
theorem upload_persist_failure (cwd : String) (req : Request) (fs : Fs)
    (pf : ParsedFiles) (fld : AvatarField) (f : UploadedFile) (name : String)
    (hm : req.method = "POST") (hp : req.parsed = .success pf)
    (hav : pf.avatar = some fld) (hex : extractFile fld = some f)
    (hon : f.originalFilename = some name) (hne : name ≠ "")
    (hre : renameSync fs f.filepath (destPath cwd req.now name) = .error ()) :
    (handler cwd req fs).1.status = 500 ∧
    (handler cwd req fs).1.body = .jsonError ("Error saving uploaded file.") ∧
    (∀ fsu : Fs, unlinkSync fs f.filepath = .ok fsu →
      (handler cwd req fs).2 = fsu ∧ fsu.hasFile f.filepath = false) ∧
    (unlinkSync fs f.filepath = .error () → (handler cwd req fs).2 = fs) := by
  obtain ⟨m, pr, now⟩ := req
  simp only [Request.method] at hm
  simp only [Request.parsed] at hp
  simp only [Request.now] at hre
  subst hp
  cases hun : unlinkSync fs f.filepath with
  | ok fsu =>
    refine ⟨?_, ?_, ?_, ?_⟩
    · simp [handler, hm, hav, hex, hon, hne, hre, hun]
    · simp [handler, hm, hav, hex, hon, hne, hre, hun]
    · intro fsu2 hun2
      injection hun2 with hun2
      subst hun2
      constructor
      · simp [handler, hm, hav, hex, hon, hne, hre, hun]
      · exact hw_unlink_ok_not_hasFile fs fsu f.filepath hun
    · intro hun2
      exact absurd hun2 (by simp)
  | error e =>
    refine ⟨?_, ?_, ?_, ?_⟩
    · simp [handler, hm, hav, hex, hon, hne, hre, hun]
    · simp [handler, hm, hav, hex, hon, hne, hre, hun]
    · intro fsu2 hun2
      exact absurd hun2 (by simp)
    · intro _
      simp [handler, hm, hav, hex, hon, hne, hre, hun]

/-- Witness for C3: destination directory read-only, so the rename
fails; the temp directory is writable, so the cleanup succeeds. -/
theorem upload_persist_failure_witness :
    renameSync
        ⟨["/srv/public/uploads/avatars"], ["/srv/public/uploads/avatars"],
          [(("/tmp/u1"), 42)]⟩ ("/tmp/u1")
        (destPath ("/srv") 12 ("a.png")) = .error () ∧
    ((handler ("/srv")
        ⟨("POST"), .success ⟨some (.single ⟨some ("a.png"), ("/tmp/u1")⟩)⟩, 12⟩
        ⟨["/srv/public/uploads/avatars"], ["/srv/public/uploads/avatars"],
          [(("/tmp/u1"), 42)]⟩).1.status = 500 ∧
      (handler ("/srv")
        ⟨("POST"), .success ⟨some (.single ⟨some ("a.png"), ("/tmp/u1")⟩)⟩, 12⟩
        ⟨["/srv/public/uploads/avatars"], ["/srv/public/uploads/avatars"],
          [(("/tmp/u1"), 42)]⟩).1.body = .jsonError ("Error saving uploaded file.") ∧
      (∀ fsu : Fs,
        unlinkSync
            ⟨["/srv/public/uploads/avatars"], ["/srv/public/uploads/avatars"],
              [(("/tmp/u1"), 42)]⟩ ("/tmp/u1") = .ok fsu →
        (handler ("/srv")
          ⟨("POST"), .success ⟨some (.single ⟨some ("a.png"), ("/tmp/u1")⟩)⟩, 12⟩
          ⟨["/srv/public/uploads/avatars"], ["/srv/public/uploads/avatars"],
            [(("/tmp/u1"), 42)]⟩).2 = fsu ∧ fsu.hasFile ("/tmp/u1") = false) ∧
      (unlinkSync
          ⟨["/srv/public/uploads/avatars"], ["/srv/public/uploads/avatars"],
            [(("/tmp/u1"), 42)]⟩ ("/tmp/u1") = .error () →
        (handler ("/srv")
          ⟨("POST"), .success ⟨some (.single ⟨some ("a.png"), ("/tmp/u1")⟩)⟩, 12⟩
          ⟨["/srv/public/uploads/avatars"], ["/srv/public/uploads/avatars"],
            [(("/tmp/u1"), 42)]⟩).2 =
          ⟨["/srv/public/uploads/avatars"], ["/srv/public/uploads/avatars"],
            [(("/tmp/u1"), 42)]⟩)) :=
  ⟨by rfl,
    upload_persist_failure ("/srv")
      ⟨("POST"), .success ⟨some (.single ⟨some ("a.png"), ("/tmp/u1")⟩)⟩, 12⟩
      ⟨["/srv/public/uploads/avatars"], ["/srv/public/uploads/avatars"],
        [(("/tmp/u1"), 42)]⟩
      ⟨some (.single ⟨some ("a.png"), ("/tmp/u1")⟩)⟩
      (.single ⟨some ("a.png"), ("/tmp/u1")⟩) ⟨some ("a.png"), ("/tmp/u1")⟩
      ("a.png") (by decide) (by decide) (by decide) (by decide) (by decide)
      (by decide) (by rfl)⟩

/-- C7: the check-or-create of the upload directory (run at module
initialisation, before any request is handled): it leaves the directory
existing, is idempotent, is a no-op when the directory already exists,
creates every missing ancestor (recursive), and therefore on any
successful upload the destination directory existed before the persist
step ran. -/
theorem upload_dir_bootstrap (cwd : String) (fs : Fs) (req : Request) :
    existsSync (ensureUploadDir cwd fs) (uploadDir cwd) = true ∧
    ensureUploadDir cwd (ensureUploadDir cwd fs) = ensureUploadDir cwd fs ∧
    (existsSync fs (uploadDir cwd) = true → ensureUploadDir cwd fs = fs) ∧
    (existsSync fs (uploadDir cwd) = false →
      ∀ d ∈ ancestorsOf (uploadDir cwd),
        (ensureUploadDir cwd fs).dirs.contains d = true) ∧
    ((processRequest cwd req fs).1.status = 200 →
      existsSync (ensureUploadDir cwd fs) (uploadDir cwd) = true) := by
  have h1 : existsSync (ensureUploadDir cwd fs) (uploadDir cwd) = true := by
    by_cases hex : existsSync fs (uploadDir cwd) = true
    · simp [ensureUploadDir, hex]
    · simp only [ensureUploadDir, hex, if_neg, Bool.not_eq_true, if_false]
      simp [existsSync, mkdirRecursive]
  refine ⟨h1, ?_, ?_, ?_, fun _ => h1⟩
  · rw [ensureUploadDir, h1]
    simp
  · intro hex
    simp [ensureUploadDir, hex]
  · intro hex d hd
    have hmk : ensureUploadDir cwd fs = mkdirRecursive fs (uploadDir cwd) := by
      rw [ensureUploadDir, hex]
      simp
    rw [hmk]
    have hmem : d ∈ (uploadDir cwd) :: (ancestorsOf (uploadDir cwd) ++ fs.dirs) :=
      List.mem_cons_of_mem _ (List.mem_append_left _ hd)
    exact List.elem_eq_true_of_mem hmem

/-- Witness for C7 on a concrete empty filesystem and GET request. -/
theorem upload_dir_bootstrap_witness :
    existsSync (ensureUploadDir ("/srv") ⟨[], [], []⟩) (uploadDir ("/srv")) = true ∧
    ensureUploadDir ("/srv") (ensureUploadDir ("/srv") ⟨[], [], []⟩) =
      ensureUploadDir ("/srv") ⟨[], [], []⟩ ∧
    (existsSync ⟨[], [], []⟩ (uploadDir ("/srv")) = true →
      ensureUploadDir ("/srv") ⟨[], [], []⟩ = ⟨[], [], []⟩) ∧
    (existsSync ⟨[], [], []⟩ (uploadDir ("/srv")) = false →
      ∀ d ∈ ancestorsOf (uploadDir ("/srv")),
        (ensureUploadDir ("/srv") ⟨[], [], []⟩).dirs.contains d = true) ∧
    ((processRequest ("/srv") ⟨("GET"), .failure (""), 0⟩ ⟨[], [], []⟩).1.status = 200 →
      existsSync (ensureUploadDir ("/srv") ⟨[], [], []⟩) (uploadDir ("/srv")) = true) :=
  upload_dir_bootstrap ("/srv") ⟨[], [], []⟩ ⟨("GET"), .failure (""), 0⟩

/-- C10: when the parsed `avatar` field is an array of several uploaded
files, the handler behaves exactly as if only the first element had been
uploaded; the remaining parts' temporary files are left untouched and
nothing is persisted under their generated names. -/
theorem upload_array_first_only (cwd : String) (req : Request) (fs : Fs)
    (pf : ParsedFiles) (f : UploadedFile) (rest : List UploadedFile)
    (hp : req.parsed = .success pf)
    (hav : pf.avatar = some (.multi (f :: rest))) :
    handler cwd req fs =
      handler cwd ⟨req.method, .success ⟨some (.single f)⟩, req.now⟩ fs ∧
    (∀ g ∈ rest, ∀ c : Nat, (g.filepath, c) ∈ fs.files →
      g.filepath ≠ f.filepath → g.filepath ≠ reqDest cwd req →
      (g.filepath, c) ∈ (handler cwd req fs).2.files) ∧
    (∀ g ∈ rest, ∀ gname : String, ∀ c : Nat,
      g.originalFilename = some gname →
      (destPath cwd req.now gname, c) ∉ fs.files →
      destPath cwd req.now gname ≠ reqDest cwd req →
      (destPath cwd req.now gname, c) ∉ (handler cwd req fs).2.files) := by
  obtain ⟨m, pr, now⟩ := req
  simp only [Request.parsed] at hp
  simp only [Request.method, Request.now] at *
  subst hp
  refine ⟨?_, ?_, ?_⟩
  · by_cases hm : m = "POST"
    · simp [handler, hm, hav, extractFile]
    · simp [handler, hm]
  · intro g hg c hc h1 h2
    refine hw_handler_preserves cwd ⟨m, .success pf, now⟩ fs g.filepath c hc ?_ h2
    rw [show reqTemp ⟨m, .success pf, now⟩ = f.filepath from by
      simp [reqTemp, hav, extractFile]]
    exact h1
  · intro g hg gname c hgn hnotin hne2 hmem
    rcases hw_handler_new cwd ⟨m, .success pf, now⟩ fs
        (destPath cwd now gname) c hmem with h | h
    · exact hnotin h
    · exact hne2 h

/-- Witness for C10 at a concrete two-file array upload. -/
theorem upload_array_first_only_witness :
    (⟨("POST"), .success ⟨some (.multi [⟨some ("a.png"), ("/tmp/u1")⟩,
        ⟨some ("b.png"), ("/tmp/u2")⟩])⟩, 9⟩ : Request).parsed =
      .success ⟨some (.multi [⟨some ("a.png"), ("/tmp/u1")⟩,
        ⟨some ("b.png"), ("/tmp/u2")⟩])⟩ ∧
    (⟨some (.multi [⟨some ("a.png"), ("/tmp/u1")⟩,
        ⟨some ("b.png"), ("/tmp/u2")⟩])⟩ : ParsedFiles).avatar =
      some (.multi [⟨some ("a.png"), ("/tmp/u1")⟩, ⟨some ("b.png"), ("/tmp/u2")⟩]) ∧
    (handler ("/srv")
        ⟨("POST"), .success ⟨some (.multi [⟨some ("a.png"), ("/tmp/u1")⟩,
          ⟨some ("b.png"), ("/tmp/u2")⟩])⟩, 9⟩
        ⟨["/srv/public/uploads/avatars"], [],
          [(("/tmp/u1"), 1), (("/tmp/u2"), 2)]⟩ =
      handler ("/srv")
        ⟨("POST"), .success ⟨some (.single ⟨some ("a.png"), ("/tmp/u1")⟩)⟩, 9⟩
        ⟨["/srv/public/uploads/avatars"], [],
          [(("/tmp/u1"), 1), (("/tmp/u2"), 2)]⟩ ∧
      (∀ g ∈ [(⟨some ("b.png"), ("/tmp/u2")⟩ : UploadedFile)], ∀ c : Nat,
        (g.filepath, c) ∈
          (⟨["/srv/public/uploads/avatars"], [],
            [(("/tmp/u1"), 1), (("/tmp/u2"), 2)]⟩ : Fs).files →
        g.filepath ≠ (⟨some ("a.png"), ("/tmp/u1")⟩ : UploadedFile).filepath →
        g.filepath ≠ reqDest ("/srv")
          ⟨("POST"), .success ⟨some (.multi [⟨some ("a.png"), ("/tmp/u1")⟩,
            ⟨some ("b.png"), ("/tmp/u2")⟩])⟩, 9⟩ →
        (g.filepath, c) ∈
          (handler ("/srv")
            ⟨("POST"), .success ⟨some (.multi [⟨some ("a.png"), ("/tmp/u1")⟩,
              ⟨some ("b.png"), ("/tmp/u2")⟩])⟩, 9⟩
            ⟨["/srv/public/uploads/avatars"], [],
              [(("/tmp/u1"), 1), (("/tmp/u2"), 2)]⟩).2.files) ∧
      (∀ g ∈ [(⟨some ("b.png"), ("/tmp/u2")⟩ : UploadedFile)], ∀ gname : String,
        ∀ c : Nat, g.originalFilename = some gname →
        (destPath ("/srv") 9 gname, c) ∉
          (⟨["/srv/public/uploads/avatars"], [],
            [(("/tmp/u1"), 1), (("/tmp/u2"), 2)]⟩ : Fs).files →
        destPath ("/srv") 9 gname ≠ reqDest ("/srv")
          ⟨("POST"), .success ⟨some (.multi [⟨some ("a.png"), ("/tmp/u1")⟩,
            ⟨some ("b.png"), ("/tmp/u2")⟩])⟩, 9⟩ →
        (destPath ("/srv") 9 gname, c) ∉
          (handler ("/srv")
            ⟨("POST"), .success ⟨some (.multi [⟨some ("a.png"), ("/tmp/u1")⟩,
              ⟨some ("b.png"), ("/tmp/u2")⟩])⟩, 9⟩
            ⟨["/srv/public/uploads/avatars"], [],
              [(("/tmp/u1"), 1), (("/tmp/u2"), 2)]⟩).2.files)) :=
  ⟨by decide, by decide,
    upload_array_first_only ("/srv")
      ⟨("POST"), .success ⟨some (.multi [⟨some ("a.png"), ("/tmp/u1")⟩,
        ⟨some ("b.png"), ("/tmp/u2")⟩])⟩, 9⟩
      ⟨["/srv/public/uploads/avatars"], [], [(("/tmp/u1"), 1), (("/tmp/u2"), 2)]⟩
      ⟨some (.multi [⟨some ("a.png"), ("/tmp/u1")⟩, ⟨some ("b.png"), ("/tmp/u2")⟩])⟩
      ⟨some ("a.png"), ("/tmp/u1")⟩ [⟨some ("b.png"), ("/tmp/u2")⟩]
      (by decide) (by decide)⟩

/-- C8 counterexample: two uploads of `a.png` in the same millisecond
(`Date.now()` returning 5 twice) generate the same destination path; the
second request's `renameSync` replaces the file stored by the first, so
the handler does overwrite an existing file that is not its own
temporary upload. -/
theorem upload_append_only_cex :
    ((("/srv/public/uploads/avatars/5-a.png") : String), (11 : Nat)) ∈
      (handler ("/srv")
        ⟨("POST"), .success ⟨some (.single ⟨some ("a.png"), ("/tmp/u1")⟩)⟩, 5⟩
        ⟨["/srv/public/uploads/avatars"], [],
          [(("/tmp/u1"), 11), (("/tmp/u2"), 22)]⟩).2.files ∧
    ("/srv/public/uploads/avatars/5-a.png") ≠
      reqTemp ⟨("POST"), .success ⟨some (.single ⟨some ("a.png"), ("/tmp/u2")⟩)⟩, 5⟩ ∧
    (handler ("/srv")
      ⟨("POST"), .success ⟨some (.single ⟨some ("a.png"), ("/tmp/u2")⟩)⟩, 5⟩
      (handler ("/srv")
        ⟨("POST"), .success ⟨some (.single ⟨some ("a.png"), ("/tmp/u1")⟩)⟩, 5⟩
        ⟨["/srv/public/uploads/avatars"], [],
          [(("/tmp/u1"), 11), (("/tmp/u2"), 22)]⟩).2).1.status = 200 ∧
    ((("/srv/public/uploads/avatars/5-a.png") : String), (11 : Nat)) ∉
      (handler ("/srv")
        ⟨("POST"), .success ⟨some (.single ⟨some ("a.png"), ("/tmp/u2")⟩)⟩, 5⟩
        (handler ("/srv")
          ⟨("POST"), .success ⟨some (.single ⟨some ("a.png"), ("/tmp/u1")⟩)⟩, 5⟩
          ⟨["/srv/public/uploads/avatars"], [],
            [(("/tmp/u1"), 11), (("/tmp/u2"), 22)]⟩).2).2.files := by
  decide

/-- C8 (amended): across any request, the handler deletes or overwrites
no existing file other than its own temporary upload and whatever file
already sits at its computed destination path; every other `(path,
content)` entry survives the request, so with fresh generated names the
upload directory is append-only. -/
theorem upload_append_only_amended (cwd : String) (req : Request) (fs : Fs)
    (p : String) (c : Nat) (hp : (p, c) ∈ fs.files)
    (h1 : p ≠ reqTemp req) (h2 : p ≠ reqDest cwd req) :
    (p, c) ∈ (handler cwd req fs).2.files :=
  hw_handler_preserves cwd req fs p c hp h1 h2

/-- Witness for amended C8: an unrelated stored asset survives a
successful upload. -/
theorem upload_append_only_amended_witness :
    ((("/srv/public/uploads/avatars/old.png") : String), (7 : Nat)) ∈
      (⟨["/srv/public/uploads/avatars"], [],
        [(("/srv/public/uploads/avatars/old.png"), 7),
          (("/tmp/u1"), 42)]⟩ : Fs).files ∧
    ("/srv/public/uploads/avatars/old.png") ≠
      reqTemp ⟨("POST"), .success ⟨some (.single ⟨some ("a.png"), ("/tmp/u1")⟩)⟩, 12⟩ ∧
    ((("/srv/public/uploads/avatars/old.png") : String), (7 : Nat)) ∈
      (handler ("/srv")
        ⟨("POST"), .success ⟨some (.single ⟨some ("a.png"), ("/tmp/u1")⟩)⟩, 12⟩
        ⟨["/srv/public/uploads/avatars"], [],
          [(("/srv/public/uploads/avatars/old.png"), 7),
            (("/tmp/u1"), 42)]⟩).2.files :=
  ⟨by decide, by decide,
    upload_append_only_amended ("/srv")
      ⟨("POST"), .success ⟨some (.single ⟨some ("a.png"), ("/tmp/u1")⟩)⟩, 12⟩
      ⟨["/srv/public/uploads/avatars"], [],
        [(("/srv/public/uploads/avatars/old.png"), 7), (("/tmp/u1"), 42)]⟩
      ("/srv/public/uploads/avatars/old.png") 7
      (by decide) (by decide) (by decide)⟩

/-- C4 counterexample: with the original filename `x/../../b.png`
uploaded at the distinct times 1 and 2, both requests resolve to the
same destination; both return 200, yet the second overwrites the asset
stored by the first, so the two uploads do not yield two independent
stored assets. -/
theorem upload_two_uploads_cex :
    destPath ("/srv") 1 ("x/../../b.png") = destPath ("/srv") 2 ("x/../../b.png") ∧
    (handler ("/srv")
      ⟨("POST"), .success ⟨some (.single ⟨some ("x/../../b.png"), ("/tmp/u1")⟩)⟩, 1⟩
      ⟨["/srv/public/uploads/avatars", "/srv/public/uploads"], [],
        [(("/tmp/u1"), 11), (("/tmp/u2"), 22)]⟩).1.status = 200 ∧
    ((("/srv/public/uploads/b.png") : String), (11 : Nat)) ∈
      (handler ("/srv")
        ⟨("POST"), .success ⟨some (.single ⟨some ("x/../../b.png"), ("/tmp/u1")⟩)⟩, 1⟩
        ⟨["/srv/public/uploads/avatars", "/srv/public/uploads"], [],
          [(("/tmp/u1"), 11), (("/tmp/u2"), 22)]⟩).2.files ∧
    (handler ("/srv")
      ⟨("POST"), .success ⟨some (.single ⟨some ("x/../../b.png"), ("/tmp/u2")⟩)⟩, 2⟩
      (handler ("/srv")
        ⟨("POST"), .success ⟨some (.single ⟨some ("x/../../b.png"), ("/tmp/u1")⟩)⟩, 1⟩
        ⟨["/srv/public/uploads/avatars", "/srv/public/uploads"], [],
          [(("/tmp/u1"), 11), (("/tmp/u2"), 22)]⟩).2).1.status = 200 ∧
    ((("/srv/public/uploads/b.png") : String), (11 : Nat)) ∉
      (handler ("/srv")
        ⟨("POST"), .success ⟨some (.single ⟨some ("x/../../b.png"), ("/tmp/u2")⟩)⟩, 2⟩
        (handler ("/srv")
          ⟨("POST"), .success ⟨some (.single ⟨some ("x/../../b.png"), ("/tmp/u1")⟩)⟩, 1⟩
          ⟨["/srv/public/uploads/avatars", "/srv/public/uploads"], [],
            [(("/tmp/u1"), 11), (("/tmp/u2"), 22)]⟩).2).2.files := by
  decide

/-- C4 (amended): for two uploads with the same original filename at
distinct timestamps, where the filename is a single path segment
(contains no `/`), the generated stored filenames are distinct, the
destination paths are distinct, and re-running the upload leaves the
first stored asset intact — a new file is created rather than one
updated. -/
theorem upload_two_uploads_independent (cwd : String) (t1 t2 : Nat)
    (name : String) (ht : t1 ≠ t2) (hplain : ∀ c ∈ name.data, c ≠ '/') :
    uniqueFilename t1 name ≠ uniqueFilename t2 name ∧
    destPath cwd t1 name ≠ destPath cwd t2 name ∧
    (∀ (fs : Fs) (c : Nat) (f2 : UploadedFile),
      (destPath cwd t1 name, c) ∈ fs.files →
      f2.originalFilename = some name →
      f2.filepath ≠ destPath cwd t1 name →
      (destPath cwd t1 name, c) ∈
        (handler cwd ⟨("POST"), .success ⟨some (.single f2)⟩, t2⟩ fs).2.files) := by
  have hd := hw_destPath_inj cwd t1 t2 name ht hplain
  refine ⟨hw_uniqueFilename_inj t1 t2 name ht, hd, ?_⟩
  intro fs c f2 hmem hf2 hne
  refine hw_handler_preserves cwd ⟨("POST"), .success ⟨some (.single f2)⟩, t2⟩
    fs (destPath cwd t1 name) c hmem ?_ ?_
  · rw [show reqTemp ⟨("POST"), .success ⟨some (.single f2)⟩, t2⟩ = f2.filepath
      from by simp [reqTemp, extractFile]]
    exact Ne.symm hne
  · rw [show reqDest cwd ⟨("POST"), .success ⟨some (.single f2)⟩, t2⟩ =
        destPath cwd t2 name
      from by simp [reqDest, extractFile, hf2]]
    exact hd

/-- Witness for amended C4 at `a.png`, times 1 and 2. -/
theorem upload_two_uploads_independent_witness :
    (1 : Nat) ≠ 2 ∧ (∀ c ∈ ("a.png" : String).data, c ≠ '/') ∧
    (uniqueFilename 1 ("a.png") ≠ uniqueFilename 2 ("a.png") ∧
      destPath ("/srv") 1 ("a.png") ≠ destPath ("/srv") 2 ("a.png") ∧
      (∀ (fs : Fs) (c : Nat) (f2 : UploadedFile),
        (destPath ("/srv") 1 ("a.png"), c) ∈ fs.files →
        f2.originalFilename = some ("a.png") →
        f2.filepath ≠ destPath ("/srv") 1 ("a.png") →
        (destPath ("/srv") 1 ("a.png"), c) ∈
          (handler ("/srv")
            ⟨("POST"), .success ⟨some (.single f2)⟩, 2⟩ fs).2.files)) :=
  ⟨by decide, by decide,
    upload_two_uploads_independent ("/srv") 1 2 ("a.png") (by decide) (by decide)⟩

/-- C9: the destination is the unsanitised join of the upload directory
with the client-declared filename, so a filename with `..` segments
resolves outside the upload root: `x/../../../evil.png` at time 7 lands
at `/srv/public/evil.png`, not under `/srv/public/uploads/avatars`, and
a run of the handler stores it there with status 200. -/
theorem upload_path_traversal :
    destPath ("/srv") 7 ("x/../../../evil.png") = ("/srv/public/evil.png") ∧
    underDir (uploadDir ("/srv")) (destPath ("/srv") 7 ("x/../../../evil.png")) =
      false ∧
    (handler ("/srv")
      ⟨("POST"), .success ⟨some (.single ⟨some ("x/../../../evil.png"),
        ("/tmp/u1")⟩)⟩, 7⟩
      ⟨["/srv/public/uploads/avatars", "/srv/public"], [],
        [(("/tmp/u1"), 11)]⟩).1.status = 200 ∧
    ((("/srv/public/evil.png") : String), (11 : Nat)) ∈
      (handler ("/srv")
        ⟨("POST"), .success ⟨some (.single ⟨some ("x/../../../evil.png"),
          ("/tmp/u1")⟩)⟩, 7⟩
        ⟨["/srv/public/uploads/avatars", "/srv/public"], [],
          [(("/tmp/u1"), 11)]⟩).2.files := by
  decide

end Hedwig
